import Mathlib

/-!
Verification of the executive-move extraction core of the
`people-on-the-move` aggregator (`src/aggregator/parsers.py`,
`src/aggregator/rss_sources.py`, `src/aggregator/news_fetcher.py`).

The Python code is shallowly embedded: strings are Lean `String`
(processed as `List Char`, ASCII scope — every vocabulary entry and every
input exercised here is ASCII), regular expressions from the source are
embedded as executable backtracking matchers with Python `re` semantics
(leftmost search, alternation in written order, greedy quantifiers),
and the two external libraries the core calls (BeautifulSoup for markup
stripping, dateutil for date parsing) are passed in as explicit function
parameters, since they are not part of this repository.  dateutil may
fail: it is modelled as returning `Except PyExc PyDT`, and the
`try/except (ValueError, TypeError)` in `parse_date` is embedded as a
match on the error kind.
-/

namespace PotM

/-- Python whitespace for `str.strip`, `str.split`, and regex `\s` (ASCII). -/
def wsChar (c : Char) : Bool :=
  c = ' ' || c = '\t' || c = '\n' || c = '\x0d' || c = '\x0b' || c = '\x0c'

/-- Regex `\w` word character (ASCII scope). -/
def isWordChar (c : Char) : Bool :=
  c.isAlpha || c.isDigit || c = '_'

/-- `str.lower()` (ASCII scope). -/
def lowerS (s : String) : String :=
  String.mk (s.data.map Char.toLower)

/-- `lhs` begins with `n` (exact, case-sensitive). -/
def beginsWith : List Char → List Char → Bool
  | [], _ => true
  | _ :: _, [] => false
  | a :: as2, b :: bs => a = b && beginsWith as2 bs

/-- Python `needle in hay` exact substring test, on char lists. -/
def hasSubL (n : List Char) : List Char → Bool
  | [] => beginsWith n []
  | c :: cs => beginsWith n (c :: cs) || hasSubL n cs

/-- Python `needle in hay` exact substring test, on strings. -/
def hasSub (needle hay : String) : Bool :=
  hasSubL needle.data hay.data

/-- `str.strip()`: drop Python whitespace from both ends. -/
def stripWs (cs : List Char) : List Char :=
  ((cs.dropWhile wsChar).reverse.dropWhile wsChar).reverse

/-- `str.strip()` on strings. -/
def pyStrip (s : String) : String :=
  String.mk (stripWs s.data)

/-- One pass of `str.split()`: split on whitespace runs, no empty words.
The accumulator holds the current word reversed. -/
def splitWsAux : List Char → List Char → List String
  | [], acc => if acc.isEmpty then [] else [String.mk acc.reverse]
  | c :: cs, acc =>
    if wsChar c then
      if acc.isEmpty then splitWsAux cs []
      else String.mk acc.reverse :: splitWsAux cs []
    else splitWsAux cs (c :: acc)

/-- Python `str.split()` (no argument form). -/
def splitPy (s : String) : List String :=
  splitWsAux s.data []

/-- Python `str.isupper()` (ASCII scope): at least one cased character and
no lowercase cased character. -/
def pyIsUpper (s : String) : Bool :=
  s.data.any Char.isAlpha && !(s.data.any Char.isLower)

/-! ## Static vocabularies (`rss_sources.py`, `parsers.py`) -/

/-- `EXECUTIVE_KEYWORDS` from `rss_sources.py`, in declared order. -/
def EXECUTIVE_KEYWORDS : List String :=
  ["appointed", "promoted", "named", "joins", "hires", "hired",
   "new ceo", "new president", "new chief", "new vp", "new vice president",
   "new director", "announces", "leadership", "executive", "succession",
   "steps down", "retires", "takes over", "taps", "elevates", "selects",
   "names", "appoints"]

/-- `EXECUTIVE_TITLES` from `rss_sources.py`, in declared order. -/
def EXECUTIVE_TITLES : List String :=
  ["CEO", "Chief Executive Officer", "President",
   "COO", "Chief Operating Officer",
   "CFO", "Chief Financial Officer",
   "CMO", "Chief Marketing Officer",
   "CTO", "Chief Technology Officer",
   "CIO", "Chief Information Officer",
   "CHRO", "Chief Human Resources Officer",
   "Chief Supply Chain Officer", "Chief Commercial Officer",
   "Chief Revenue Officer", "Chief Sales Officer", "Chief Strategy Officer",
   "Vice President", "VP", "SVP", "Senior Vice President",
   "EVP", "Executive Vice President", "Group Vice President",
   "Regional Vice President",
   "VP of Sales", "VP of Marketing", "VP of Operations", "VP of Finance",
   "VP of Human Resources", "VP of Supply Chain", "VP of Manufacturing",
   "VP of Procurement", "VP of Quality", "VP of R&D", "VP of Research",
   "Director", "Senior Director", "Executive Director", "Managing Director",
   "Regional Director",
   "Director of Sales", "Director of Marketing", "Director of Operations",
   "Director of Finance",
   "General Manager", "Plant Manager", "Division President",
   "Business Unit President",
   "Chairman", "Board Member", "Board Director"]

/-- `FALSE_POSITIVE_NAMES` from `parsers.py` (a Python set; membership only). -/
def FALSE_POSITIVE_NAMES : List String :=
  ["supermarket news", "progressive grocer", "grocery dive", "food dive",
   "meat poultry", "meat + poultry", "reuters", "associated press", "ap news",
   "business wire", "pr newswire", "globe newswire", "cision", "yahoo finance",
   "wall street journal", "new york times", "bloomberg", "cnbc", "fox business",
   "food business news", "food navigator", "the packer", "produce news",
   "watt poultry", "national provisioner", "perishable news", "spectrum news",
   "xavier newswire", "investment executive", "industry dive",
   "quietly setting up", "business chief", "warns of", "brings walmart experience",
   "walmart executive", "settled this lawsuit", "grocery chain", "retail giant",
   "food company", "meat company", "industry veteran", "company announces",
   "press release", "news release", "breaking news", "just announced",
   "read more", "click here", "learn more", "see more", "view all",
   "president trump", "president biden", "president obama",
   "greg foran takes", "brings experience", "takes helm", "steps down",
   "steps up", "moves up", "moves on", "stepping down", "stepping up",
   "butterball farms", "tyson foods", "hormel foods", "cargill inc",
   "jbs usa", "smithfield foods", "pilgrim pride", "perdue farms",
   "conagra brands", "kraft heinz", "general mills", "kellogg company",
   "nestle usa", "unilever usa", "pepsico inc", "coca cola",
   "new ceo", "new president", "new cfo", "new coo", "next ceo",
   "its next ceo", "new hire", "top executive", "senior executive",
   "board member", "board director", "company executive"]

/-- `INVALID_FIRST_WORDS` from `parsers.py`. -/
def INVALID_FIRST_WORDS : List String :=
  ["the", "a", "an", "new", "former", "current", "acting", "interim",
   "its", "their", "our", "your", "his", "her", "this", "that",
   "brings", "quietly", "business", "walmart", "kroger", "tyson",
   "supermarket", "progressive", "grocery", "food", "meat", "industry",
   "company", "corporate", "executive", "president", "investment",
   "retail", "wholesale", "breaking", "just", "press", "news",
   "warns", "settled", "takes", "steps", "moves", "stepping",
   "read", "click", "learn", "see", "view", "get", "how", "why",
   "what", "when", "where", "who", "which", "here", "there",
   "vet", "veteran", "longtime", "seasoned", "senior", "junior",
   "chief", "ceo", "cfo", "coo", "cto", "cmo", "vp", "svp", "evp",
   "director", "manager", "head", "leader", "founder", "owner"]

/-- `INVALID_LAST_WORDS` from `parsers.py`. -/
def INVALID_LAST_WORDS : List String :=
  ["news", "grocer", "dive", "wire", "times", "journal", "post",
   "tribune", "herald", "gazette", "press", "media", "report",
   "foods", "farms", "inc", "corp", "corporation", "company", "co",
   "llc", "ltd", "group", "holdings", "brands", "products",
   "experience", "chief", "executive", "lawsuit", "helm",
   "ceo", "cfo", "coo", "cto", "cmo", "vp", "svp", "evp",
   "up", "down", "on", "off", "out", "in", "here", "there"]

/-! ## Classifier: `is_executive_move` -/

/-- Wordness of an optional character; out of range counts as non-word
(regex `\b` semantics at string edges). -/
def wordOpt : Option Char → Bool
  | none => false
  | some c => isWordChar c

/-- Case-insensitive prefix test returning the rest of the text after the
pattern, or `none`. -/
def lcPrefixRest : List Char → List Char → Option (List Char)
  | [], rest => some rest
  | _ :: _, [] => none
  | p :: ps, t :: ts => if p.toLower = t.toLower then lcPrefixRest ps ts else none

/-- Does `\b pat \b` (IGNORECASE) match exactly at the head of `txt`,
where `prev` is the character just before this position? -/
def wwCheck (pat txt : List Char) (prev : Option Char) : Bool :=
  match lcPrefixRest pat txt with
  | none => false
  | some rest =>
    (wordOpt prev != wordOpt txt.head?) &&
    (wordOpt (txt.take pat.length).getLast? != wordOpt rest.head?)

/-- `re.search` position of the compiled `\b escaped-literal \b`
IGNORECASE pattern (as built by `_build_title_patterns`): the leftmost
index of a word-bounded case-insensitive occurrence. -/
def wwFindAux (pat : List Char) : List Char → Option Char → Nat → Option Nat
  | txt, prev, i =>
    if wwCheck pat txt prev then some i
    else
      match txt with
      | [] => none
      | c :: rest => wwFindAux pat rest (some c) (i + 1)

/-- Leftmost whole-word, case-insensitive occurrence of `pat` in `txt`. -/
def wwFind (pat txt : List Char) : Option Nat :=
  wwFindAux pat txt none 0

/-- Whether some whole-word occurrence exists (`pattern.search` truthiness). -/
def wwMatch (pat txt : String) : Bool :=
  (wwFind pat.data txt.data).isSome

/-- Keyword stage of `is_executive_move`:
`any(kw in combined_text for kw in EXECUTIVE_KEYWORDS)`. -/
def keywordStage (combined : String) : Bool :=
  EXECUTIVE_KEYWORDS.any (fun kw => hasSub kw combined)

/-- Title stage of `is_executive_move`:
`any(p.search(combined_text) for p in self.title_patterns)`. -/
def titleStage (combined : String) : Bool :=
  EXECUTIVE_TITLES.any (fun t => wwMatch t combined)

/-- `ArticleParser.is_executive_move(title, content)`. -/
def is_executive_move (title content : String) : Bool :=
  let combined := lowerS (title ++ " " ++ content)
  if keywordStage combined then titleStage combined else false

/-! ## ActionClassifier: `extract_action` -/

/-- `ArticleParser.extract_action(text)`.  The Python function is annotated
`Optional[str]` but every path returns a string (the final default is
`'named'`), so the embedding returns `String`. -/
def extract_action (text : String) : String :=
  let tl := lowerS text
  if hasSub "promoted" tl then "promoted to"
  else if hasSub "appoints" tl || hasSub "appointed" tl then "appointed"
  else if hasSub "taps" tl || hasSub "tapped" tl then "tapped as"
  else if hasSub "names" tl || hasSub "named" tl then "named"
  else if hasSub "joins" tl || hasSub "hired" tl || hasSub "hires" tl then "joins as"
  else if hasSub "announces" tl || hasSub "appointment" tl then "announced as"
  else "named"

/-! ## Name validation: `_is_valid_person_name` -/

/-- Inline set in `_is_valid_person_name`: suspicious second words. -/
def SECOND_WORD_SUFFIXES : List String :=
  ["news", "dive", "wire", "grocer", "times", "journal", "post", "tribune",
   "herald", "gazette", "foods", "farms", "brands", "executive"]

/-- Inline set `verbs_as_names` in `_is_valid_person_name`. -/
def VERBS_AS_NAMES : List String :=
  ["promoted", "appointed", "named", "hired", "takes", "joins", "becomes",
   "steps", "moves", "brings"]

/-- Inline set `political_names` in `_is_valid_person_name`. -/
def POLITICAL_NAMES : List String :=
  ["trump", "biden", "obama", "bush", "clinton"]

/-- Inline set `non_name_middle_words` in `_is_valid_person_name`. -/
def NON_NAME_MIDDLE_WORDS : List String :=
  ["and", "or", "the", "of", "for", "at", "in", "on", "to", "as", "its",
   "their", "new", "next"]

/-- `words[1:-1] if len(words) > 2 else []`. -/
def middleWords (ws : List String) : List String :=
  if 2 < ws.length then (ws.drop 1).dropLast else []

/-- `ArticleParser._is_valid_person_name(name)`: the early-return chain of
checks, in source order.  `words[0]`, `words[1]`, `words[-1]` are written
with total accessors whose defaults are unreachable once the 2-to-4-word
check has passed. -/
def _is_valid_person_name (name : String) : Bool :=
  if name = "" then false
  else if FALSE_POSITIVE_NAMES.contains (lowerS name) then false
  else
    let words := splitPy name
    if ¬ (2 ≤ words.length ∧ words.length ≤ 4) then false
    else if INVALID_FIRST_WORDS.contains (lowerS (words.headD "")) then false
    else if INVALID_LAST_WORDS.contains (lowerS (words.getLastD "")) then false
    else if pyIsUpper (words.headD "") ∧ 1 < (words.headD "").length then false
    else if 2 ≤ words.length ∧
        SECOND_WORD_SUFFIXES.contains (lowerS (words.getD 1 "")) then false
    else if VERBS_AS_NAMES.contains (lowerS (words.getLastD "")) then false
    else if 2 ≤ words.length ∧ lowerS (words.headD "") = "president" ∧
        POLITICAL_NAMES.contains (lowerS (words.getD 1 "")) then false
    else if (middleWords words).any
        (fun w => NON_NAME_MIDDLE_WORDS.contains (lowerS w) && w.length ≤ 3)
      then false
    else true

/-! ## A small backtracking regex engine

`extract_person_name` and the context-widening step of `extract_title`
use `re.search` with patterns built from literals, the classes
`[A-Z] [a-z] \w \s`, alternation, optional and starred groups, and one
capture group.  The engine below implements Python `re` backtracking
semantics for exactly those constructs: `re.search` scans start positions
left to right, alternatives are tried in written order, and `*` `+` `?`
are greedy.  Evaluation is fuel-bounded; the fuel passed by `searchAux`
exceeds the engine's maximal recursion depth (each star iteration must
consume at least one character), so the bound is never the reason a
match fails. -/

/-- Character classes appearing in the source regexes. -/
inductive CCls where
  | upper
  | lower
  | word
  | space
  deriving DecidableEq, Repr

/-- Membership in a character class. -/
def CCls.mem : CCls → Char → Bool
  | .upper, c => 'A' ≤ c && c ≤ 'Z'
  | .lower, c => 'a' ≤ c && c ≤ 'z'
  | .word, c => isWordChar c
  | .space, c => wsChar c

/-- Regex abstract syntax: `eps` the empty pattern, `bos` the anchor `^`
(no MULTILINE flag anywhere in the source), `ch` a case-sensitive
literal character, `chI` a case-insensitive one, `cls` a class, `cat`
concatenation, `alt` ordered alternation, `star` greedy `*`, and
`group` the single capture group `( )` of a pattern. -/
inductive RE where
  | eps
  | bos
  | ch (c : Char)
  | chI (c : Char)
  | cls (c : CCls)
  | cat (a b : RE)
  | alt (a b : RE)
  | star (r : RE)
  | group (r : RE)
  deriving DecidableEq, Repr

/-- Structural size of a regex, used only to compute a sufficient fuel. -/
def reSize : RE → Nat
  | .eps => 1
  | .bos => 1
  | .ch _ => 1
  | .chI _ => 1
  | .cls _ => 1
  | .cat a b => reSize a + reSize b + 1
  | .alt a b => reSize a + reSize b + 1
  | .star r => reSize r + 1
  | .group r => reSize r + 1

/-- Engine results: `none` = no match; `some g` = match, with `g` the
content of the capture group if it participated. -/
abbrev MRes := Option (Option (List Char))

/-- Engine continuations: remaining text, previous character, capture so
far. -/
abbrev MCont := List Char → Option Char → Option (List Char) → MRes

/-- The backtracking matcher, in continuation-passing style.  `s` is the
remaining input, `prev` the character before the current position (for
`bos`), `g` the capture recorded so far, and `k` the continuation run
on every way the current regex can match.  A `star` tries the longer
match first (greedy) and requires progress in each iteration.  The fuel
decreases on every recursive call; `searchAux` supplies more fuel than
the deepest possible call chain. -/
def mrunF : Nat → RE → List Char → Option Char → Option (List Char) → MCont → MRes
  | 0, _, _, _, _, _ => none
  | Nat.succ _, .eps, s, prev, g, k => k s prev g
  | Nat.succ _, .bos, s, prev, g, k => if prev.isNone then k s prev g else none
  | Nat.succ _, .ch c, s, _prev, g, k =>
    match s with
    | [] => none
    | x :: xs => if x = c then k xs (some x) g else none
  | Nat.succ _, .chI c, s, _prev, g, k =>
    match s with
    | [] => none
    | x :: xs => if x.toLower = c.toLower then k xs (some x) g else none
  | Nat.succ _, .cls cc, s, _prev, g, k =>
    match s with
    | [] => none
    | x :: xs => if CCls.mem cc x then k xs (some x) g else none
  | Nat.succ f, .cat a b, s, prev, g, k =>
    mrunF f a s prev g (fun s2 p2 g2 => mrunF f b s2 p2 g2 k)
  | Nat.succ f, .alt a b, s, prev, g, k =>
    match mrunF f a s prev g k with
    | some r => some r
    | none => mrunF f b s prev g k
  | Nat.succ f, .star r, s, prev, g, k =>
    match mrunF f r s prev g
        (fun s2 p2 g2 =>
          if s2.length < s.length then mrunF f (.star r) s2 p2 g2 k else none) with
    | some r2 => some r2
    | none => k s prev g
  | Nat.succ f, .group r, s, prev, g, k =>
    mrunF f r s prev g
      (fun s2 p2 _ => k s2 p2 (some (s.take (s.length - s2.length))))

/-- Fuel that exceeds the engine's maximal recursion depth on `s`. -/
def fuelFor (r : RE) (s : List Char) : Nat :=
  (reSize r + 2) * (s.length + 3)

/-- `re.search` over char lists: try each start position left to right,
keeping track of the previous character. -/
def searchAux (r : RE) : List Char → Option Char → MRes
  | s, prev =>
    match mrunF (fuelFor r s) r s prev none (fun _ _ g => some g) with
    | some g => some g
    | none =>
      match s with
      | [] => none
      | c :: cs => searchAux r cs (some c)

/-- `re.search(pattern, text)` followed by `match.group(1)`: `some` of the
captured characters on a match, `none` otherwise.  Every pattern fed to
this function has a capture group that participates in any match. -/
def group1Search (r : RE) (text : String) : Option String :=
  match searchAux r text.data none with
  | some (some cs) => some (String.mk cs)
  | _ => none

/-- Case-sensitive literal regex for a string. -/
def litR : List Char → RE
  | [] => .eps
  | c :: cs => .cat (.ch c) (litR cs)

/-- Case-sensitive literal regex for a string literal. -/
def litRS (s : String) : RE := litR s.data

/-- Case-insensitive literal regex. -/
def litIR : List Char → RE
  | [] => .eps
  | c :: cs => .cat (.chI c) (litIR cs)

/-- Case-insensitive literal regex for a string literal. -/
def litIRS (s : String) : RE := litIR s.data

/-- Ordered alternation of a head and further alternatives. -/
def altL (r : RE) (rs : List RE) : RE := rs.foldl .alt r

/-- Greedy `+`. -/
def plusR (r : RE) : RE := .cat r (.star r)

/-- Greedy `?`. -/
def optR (r : RE) : RE := .alt r .eps

/-- `\s+`. -/
def spP : RE := plusR (.cls .space)

/-- `\w+`. -/
def wwP : RE := plusR (.cls .word)

/-- `[A-Z][a-z]+`. -/
def capWord : RE := .cat (.cls .upper) (plusR (.cls .lower))

/-! ## NameExtractor: `extract_person_name` -/

/-- The shared name sub-pattern of `extract_person_name`:
`[A-Z][a-z]+\s+(?:[A-Z]\.?\s+)?[A-Z][a-z]+(?:\s+[A-Z][a-z]+)?`. -/
def nameRE : RE :=
  .cat capWord (.cat spP
    (.cat (optR (.cat (.cls .upper) (.cat (optR (.ch '.')) spP)))
      (.cat capWord (optR (.cat spP capWord)))))

/-- Pattern 1: `(?:Appoints|Names|Taps|Hires|Promotes|Selects|Elevates)\s+(NAME)\s+(?:as|to|for|Group)`. -/
def npat1 : RE :=
  .cat (altL (litRS "Appoints")
      [litRS "Names", litRS "Taps", litRS "Hires", litRS "Promotes",
       litRS "Selects", litRS "Elevates"])
    (.cat spP (.cat (.group nameRE)
      (.cat spP (altL (litRS "as") [litRS "to", litRS "for", litRS "Group"]))))

/-- Pattern 2: `Appointment\s+of\s+(NAME)`. -/
def npat2 : RE :=
  .cat (litRS "Appointment") (.cat spP (.cat (litRS "of") (.cat spP (.group nameRE))))

/-- Pattern 3: `^(NAME)\s+(?:has been|was|is|will)`. -/
def npat3 : RE :=
  .cat .bos (.cat (.group nameRE)
    (.cat spP (altL (litRS "has been") [litRS "was", litRS "is", litRS "will"])))

/-- Pattern 4: `(?:appointed|named|hired|promotes?|taps|selects|elevates)\s+(NAME)\s+(?:as|to|for)`. -/
def npat4 : RE :=
  .cat (altL (litRS "appointed")
      [litRS "named", litRS "hired", .cat (litRS "promote") (optR (.ch 's')),
       litRS "taps", litRS "selects", litRS "elevates"])
    (.cat spP (.cat (.group nameRE)
      (.cat spP (altL (litRS "as") [litRS "to", litRS "for"]))))

/-- Pattern 5: `(?:welcomes?|announces?)\s+(NAME)`. -/
def npat5 : RE :=
  .cat (altL (.cat (litRS "welcome") (optR (.ch 's')))
      [.cat (litRS "announce") (optR (.ch 's'))])
    (.cat spP (.group nameRE))

/-- Pattern 6: `(NAME)\s+(?:joins|named|appointed|to lead|to head|becomes)`. -/
def npat6 : RE :=
  .cat (.group nameRE)
    (.cat spP (altL (litRS "joins")
      [litRS "named", litRS "appointed", litRS "to lead", litRS "to head",
       litRS "becomes"]))

/-- Pattern 7: `(NAME),?\s+(?:the new|new|as|named)`. -/
def npat7 : RE :=
  .cat (.group nameRE)
    (.cat (optR (.ch ',')) (.cat spP
      (altL (litRS "the new") [litRS "new", litRS "as", litRS "named"])))

/-- Pattern 8: `(?:CEO|President|CFO|COO|VP|Director)\s+(NAME)`. -/
def npat8 : RE :=
  .cat (altL (litRS "CEO")
      [litRS "President", litRS "CFO", litRS "COO", litRS "VP", litRS "Director"])
    (.cat spP (.group nameRE))

/-- Pattern 9: `names\s+(NAME)\s+(?:CEO|President|CFO|COO|VP|Director|Chief)`. -/
def npat9 : RE :=
  .cat (litRS "names") (.cat spP (.cat (.group nameRE)
    (.cat spP (altL (litRS "CEO")
      [litRS "President", litRS "CFO", litRS "COO", litRS "VP",
       litRS "Director", litRS "Chief"]))))

/-- Pattern 10: `(NAME)\s+to\s+(?:CEO|President|CFO|COO|VP|Director|Chief)`. -/
def npat10 : RE :=
  .cat (.group nameRE) (.cat spP (.cat (litRS "to") (.cat spP
    (altL (litRS "CEO")
      [litRS "President", litRS "CFO", litRS "COO", litRS "VP",
       litRS "Director", litRS "Chief"]))))

/-- Pattern 11: `hires\s+(NAME)`. -/
def npat11 : RE :=
  .cat (litRS "hires") (.cat spP (.group nameRE))

/-- Pattern 12: `(NAME)\s+(?:promoted|elevated|tapped)`. -/
def npat12 : RE :=
  .cat (.group nameRE)
    (.cat spP (altL (litRS "promoted") [litRS "elevated", litRS "tapped"]))

/-- The ordered pattern list of `extract_person_name`. -/
def namePatterns : List RE :=
  [npat1, npat2, npat3, npat4, npat5, npat6, npat7, npat8, npat9, npat10,
   npat11, npat12]

/-- The pattern loop of `extract_person_name`: search each pattern in
order; on a match, strip the capture and validate; return the first
valid name, else move on. -/
def tryPatterns : List RE → String → Option String
  | [], _ => none
  | p :: ps, text =>
    match group1Search p text with
    | some raw =>
      if _is_valid_person_name (pyStrip raw) then some (pyStrip raw)
      else tryPatterns ps text
    | none => tryPatterns ps text

/-- `ArticleParser.extract_person_name(text)`. -/
def extract_person_name (text : String) : Option String :=
  tryPatterns namePatterns text

/-! ## TitleExtractor: `extract_title` -/

/-- The context-widening pattern of `extract_title` for a matched title
text `m`: `(?:as|to|new)\s+((?:\w+\s+)*ESCAPED-M(?:\s+of\s+\w+)?)`,
compiled IGNORECASE (`re.escape` only neutralizes metacharacters, so the
escaped title is a plain literal). -/
def fullTitleRE (m : List Char) : RE :=
  .cat (altL (litIRS "as") [litIRS "to", litIRS "new"])
    (.cat spP (.group
      (.cat (.star (.cat wwP spP))
        (.cat (litIR m)
          (optR (.cat spP (.cat (litIRS "of") (.cat spP wwP))))))))

/-- The title loop of `extract_title`: for each vocabulary title in
declared order, `pattern.search(text)`; on a hit, cut a context window
of 50 characters around the match, try the widening pattern there, and
return its stripped group 1, else the bare matched text. -/
def etLoop (text : String) : List String → Option String
  | [] => none
  | t :: ts =>
    match wwFind t.data text.data with
    | none => etLoop text ts
    | some i =>
      let m := (text.data.drop i).take t.data.length
      let start := i - 50
      let stop := min text.data.length (i + t.data.length + 50)
      let context := (text.data.drop start).take (stop - start)
      match searchAux (fullTitleRE m) context none with
      | some (some g) => some (String.mk (stripWs g))
      | _ => some (String.mk m)

/-- `ArticleParser.extract_title(text)`. -/
def extract_title (text : String) : Option String :=
  etLoop text EXECUTIVE_TITLES

/-! ## Dates, external collaborators, and `parse_article` -/

/-- The Python exception kinds relevant to `parse_date`: the two caught
by its `except (ValueError, TypeError)` clause, plus `OverflowError`
(which `dateutil.parser.parse` documents for out-of-range inputs) and a
catch-all for any other kind. -/
inductive PyExc where
  | valueError
  | typeError
  | overflowError
  | otherExc
  deriving DecidableEq, Repr

/-- A Python `datetime`: the naive wall-clock value (in seconds, so that
`timedelta(days=d)` is `d * 86400`) and whether a `tzinfo` is attached.
`replace(tzinfo=None)` keeps the wall-clock fields, so naive comparison
is comparison of `wall`. -/
structure PyDT where
  wall : Int
  hasTz : Bool
  deriving DecidableEq, Repr

deriving instance DecidableEq for Except

/-- `dt.replace(tzinfo=None) if dt.tzinfo else dt`. -/
def pyDropTz (dt : PyDT) : PyDT :=
  if dt.hasTz then { wall := dt.wall, hasTz := false } else dt

/-- `ArticleParser.parse_date(date_str)`, with the external
`dateutil.parser.parse` passed in as `duParse`.  A falsy input (absent
or empty string) yields `none` before the parser is consulted; a
`ValueError` or `TypeError` from the parser is caught and yields `none`;
any other exception kind propagates. -/
def parse_date (duParse : String → Except PyExc PyDT) (date_str : Option String) :
    Except PyExc (Option PyDT) :=
  match date_str with
  | none => .ok none
  | some s =>
    if s = "" then .ok none
    else
      match duParse s with
      | .ok dt => .ok (some dt)
      | .error .valueError => .ok none
      | .error .typeError => .ok none
      | .error e => .error e

/-- `ArticleParser.clean_html(html_content)` with the external
`BeautifulSoup(...).get_text(separator=' ')` passed in as `soupText`;
the source then collapses whitespace runs to single spaces
(`re.sub(r'\s+', ' ', text)`) and strips. -/
def squeezeWsAux : List Char → Bool → List Char
  | [], _ => []
  | c :: cs, inWs =>
    if wsChar c then
      if inWs then squeezeWsAux cs true else ' ' :: squeezeWsAux cs true
    else c :: squeezeWsAux cs false

/-- `ArticleParser.clean_html`. -/
def clean_html (soupText : String → String) (html : String) : String :=
  String.mk (stripWs (squeezeWsAux (soupText html).data false))

/-- The age-filter condition of `parse_article`:
`if max_age_days and announcement_date:` (both must be truthy — a zero
or absent `max_age_days`, or an unresolved date, disables the filter)
then drop when the offset-stripped date is strictly before
`datetime.now() - timedelta(days=max_age_days)`. -/
def ageDropped (max_age_days : Option Int) (announcement_date : Option PyDT)
    (now : Int) : Bool :=
  match max_age_days, announcement_date with
  | some d, some dt =>
    if d = 0 then false
    else decide ((pyDropTz dt).wall < now - d * 86400)
  | _, _ => false

/-- The output record of `parse_article` (the spec's Candidate).
`announcement_date` holds `announcement_date.date()` as an epoch day
number. -/
structure Candidate where
  person_name : String
  new_title : Option String
  action : String
  raw_text : String
  source_url : Option String
  source_name : Option String
  announcement_date : Option Int
  deriving DecidableEq, Repr

/-- `ArticleParser.parse_article`.  `soupText` and `duParse` stand for the
external markup and date libraries; `now` is `datetime.now()` in
seconds.  The result is `Except` because an uncaught exception from the
date parser propagates; every other path returns `.ok`. -/
def parse_articleE (soupText : String → String)
    (duParse : String → Except PyExc PyDT)
    (title content : String) (published_date : Option String)
    (source_url source_name : Option String)
    (max_age_days : Option Int) (now : Int) :
    Except PyExc (Option Candidate) :=
  let clean_content := if content ≠ "" then clean_html soupText content else ""
  let combined_text := title ++ " " ++ clean_content
  if is_executive_move title clean_content then
    match parse_date duParse published_date with
    | .error e => .error e
    | .ok announcement_date =>
      if ageDropped max_age_days announcement_date now then .ok none
      else
        match extract_person_name combined_text with
        | none => .ok none
        | some person_name =>
          .ok (some
            { person_name := person_name
              new_title := extract_title combined_text
              action := extract_action combined_text
              raw_text := String.mk (combined_text.data.take 2000)
              source_url := source_url
              source_name := source_name
              announcement_date :=
                announcement_date.map (fun dt => dt.wall.fdiv 86400) })
  else .ok none

/-! ## CompanyMatcher: `find_company_in_text` -/

/-- A tracked-company record as consumed by `find_company_in_text`: the
function reads only `company['name']` and `company.get('aliases', [])`. -/
structure Company where
  name : String
  aliases : List String
  deriving DecidableEq, Repr

/-- Does this company match the lower-cased text (canonical name as a
substring, else any alias as a substring)? -/
def companyHit (tl : String) (c : Company) : Bool :=
  hasSub (lowerS c.name) tl || c.aliases.any (fun al => hasSub (lowerS al) tl)

/-- The company loop of `find_company_in_text`: first the canonical name,
then the aliases, first company with any match wins. -/
def fcLoop (tl : String) : List Company → Option Company
  | [] => none
  | c :: cs =>
    if hasSub (lowerS c.name) tl then some c
    else if c.aliases.any (fun al => hasSub (lowerS al) tl) then some c
    else fcLoop tl cs

/-- `find_company_in_text(text, companies)`. -/
def find_company_in_text (text : String) (companies : List Company) :
    Option Company :=
  fcLoop (lowerS text) companies

/-! ## Deduplication (`news_fetcher.py`) -/

/-- A raw feed item as built by `fetch_rss_feed` / `fetch_google_news`. -/
structure RawArticle where
  title : String
  content : String
  link : String
  published : String
  source_name : String
  deriving DecidableEq, Repr

/-- The raw-article dedup loop of `NewsFetcher.fetch_google_news`
(lines 98-106): `if article['link'] not in seen_urls` — the link value
is used as the key whether or not it is empty. -/
def dedupGoogleAux (seen : List String) : List RawArticle → List RawArticle
  | [] => []
  | a :: rest =>
    if seen.contains a.link then dedupGoogleAux seen rest
    else a :: dedupGoogleAux (a.link :: seen) rest

/-- Batch dedup of raw Google News articles by `link`. -/
def dedup_by_link (articles : List RawArticle) : List RawArticle :=
  dedupGoogleAux [] articles

/-- Truthiness of `ann.get('source_url', '')` being false: the stored
value is `None` or the empty string. -/
def urlNotTruthy (a : Candidate) : Bool :=
  match a.source_url with
  | none => true
  | some s => decide (s = "")

/-- The announcement dedup loop of `NewsAggregator.fetch_all`
(lines 444-455): a truthy URL already seen is dropped, a truthy unseen
URL is kept and recorded, a falsy URL is always kept. -/
def dedupAnnAux (seen : List String) : List Candidate → List Candidate
  | [] => []
  | a :: rest =>
    match a.source_url with
    | some u =>
      if u ≠ "" then
        if seen.contains u then dedupAnnAux seen rest
        else a :: dedupAnnAux (u :: seen) rest
      else a :: dedupAnnAux seen rest
    | none => a :: dedupAnnAux seen rest

/-- Final dedup of announcements by `source_url` in `fetch_all`. -/
def dedup_by_source_url (anns : List Candidate) : List Candidate :=
  dedupAnnAux [] anns

/-! ## Statement-level definitions -/

/-- The stripped capture the `k`-th pattern of a pattern list produces on
`text` (`none` when the pattern does not match or `k` is out of range). -/
def candAtL (ps : List RE) (text : String) (k : Nat) : Option String :=
  match ps.get? k with
  | some p => (group1Search p text).map pyStrip
  | none => none

/-- The stripped capture of the `k`-th `extract_person_name` pattern. -/
def nameCand (text : String) (k : Nat) : Option String :=
  candAtL namePatterns text k

/-- Whether an outcome of the external date parser is one `parse_date`
absorbs: success, or one of the two caught exception kinds. -/
def exnCaught : Except PyExc PyDT → Bool
  | .ok _ => true
  | .error .valueError => true
  | .error .typeError => true
  | .error _ => false

end PotM

namespace PotM

/-! ## Helper lemmas -/

theorem fcLoop_some (tl : String) :
    ∀ (cs : List Company) (c : Company),
      fcLoop tl cs = some c →
      ∃ k, cs.get? k = some c ∧ companyHit tl c = true ∧
        ∀ j, j < k → ∀ c2, cs.get? j = some c2 → companyHit tl c2 = false := by
  intro cs
  induction cs with
  | nil => intro c h; simp [fcLoop] at h
  | cons a rest ih =>
    intro c h
    rw [fcLoop] at h
    by_cases hn : hasSub (lowerS a.name) tl = true
    · rw [if_pos hn] at h
      refine ⟨0, by simpa using h, ?_, by omega⟩
      obtain rfl : a = c := by injection h
      simp [companyHit, hn]
    · rw [if_neg hn] at h
      by_cases ha : a.aliases.any (fun al => hasSub (lowerS al) tl) = true
      · rw [if_pos ha] at h
        refine ⟨0, by simpa using h, ?_, by omega⟩
        obtain rfl : a = c := by injection h
        simp [companyHit, ha]
      · rw [if_neg ha] at h
        obtain ⟨k, hk, hhit, hbefore⟩ := ih c h
        refine ⟨k + 1, by simpa using hk, hhit, ?_⟩
        intro j hj c2 hc2
        match j with
        | 0 =>
          obtain rfl : a = c2 := by injection hc2
          simp only [companyHit, Bool.or_eq_false_iff]
          exact ⟨by simpa using hn, by simpa using ha⟩
        | Nat.succ j2 =>
          exact hbefore j2 (by omega) c2 (by simpa using hc2)

theorem fcLoop_none (tl : String) :
    ∀ cs : List Company,
      fcLoop tl cs = none ↔ ∀ c ∈ cs, companyHit tl c = false := by
  intro cs
  induction cs with
  | nil => simp [fcLoop]
  | cons a rest ih =>
    rw [fcLoop]
    by_cases hn : hasSub (lowerS a.name) tl = true
    · simp [if_pos hn, companyHit, hn]
    · rw [if_neg hn]
      by_cases ha : a.aliases.any (fun al => hasSub (lowerS al) tl) = true
      · rw [if_pos ha]
        constructor
        · intro h; exact absurd h (by simp)
        · intro h
          have hhit := h a (List.mem_cons_self a rest)
          rw [companyHit] at hhit
          simp [ha] at hhit
      · rw [if_neg ha]
        constructor
        · intro h c hc
          rcases List.mem_cons.mp hc with rfl | hc2
          · simp only [companyHit, Bool.or_eq_false_iff]
            exact ⟨by simpa using hn, by simpa using ha⟩
          · exact (ih.mp h) c hc2
        · intro h
          exact ih.mpr (fun c hc => h c (List.mem_cons_of_mem a hc))

/-! ## Claim theorems -/

/-- C1 (counterexample): the spec asserts
`is_executive_move("Tyson Foods promotes John Smith to VP of Operations", "")`
returns true, but the code returns false. -/
theorem c1_counterexample :
    is_executive_move "Tyson Foods promotes John Smith to VP of Operations" ""
      = false := by
  decide

/-- C1 (amended): the call returns false.  The keyword stage finds no
match — the vocabulary contains "promoted" but not "promotes" — even
though the title stage would succeed, so the two-stage AND fails at
stage 1. -/
theorem c1_amended :
    is_executive_move "Tyson Foods promotes John Smith to VP of Operations" ""
        = false ∧
    keywordStage
        (lowerS ("Tyson Foods promotes John Smith to VP of Operations" ++ " " ++ ""))
        = false ∧
    titleStage
        (lowerS ("Tyson Foods promotes John Smith to VP of Operations" ++ " " ++ ""))
        = true ∧
    "promotes" ∉ EXECUTIVE_KEYWORDS ∧ "promoted" ∈ EXECUTIVE_KEYWORDS := by
  exact ⟨by decide, by decide, by decide, by decide, by decide⟩

/-- C2 (counterexample): "Senior Vice President" occurs in the input, yet
`extract_title` returns the truncated generic term "President". -/
theorem c2_counterexample :
    hasSub "Senior Vice President" "Senior Vice President Jane Doe retires"
        = true ∧
    extract_title "Senior Vice President Jane Doe retires" = some "President" := by
  exact ⟨by decide, by decide⟩

/-- C2 (amended): `extract_title` scans `EXECUTIVE_TITLES` in declared
order, and in that order the generic "President" (index 2) precedes the
compound "Senior Vice President" (index 23); consequently an input
containing "Senior Vice President" can yield the truncated title
"President" when no `as`/`to`/`new` context phrase rescues it. -/
theorem c2_amended :
    EXECUTIVE_TITLES.indexOf "President" = 2 ∧
    EXECUTIVE_TITLES.indexOf "Senior Vice President" = 23 ∧
    extract_title "Senior Vice President Jane Doe retires" = some "President" := by
  exact ⟨by decide, by decide, by decide⟩

/-- C7: `extract_action` lower-cases its input and tests the fixed ordered
substring list with first match winning, so every input produces exactly
one of the six labels (with "named" doubling as the default), any text
containing "promoted" maps to "promoted to" regardless of later
matches, and the spec's example evaluates to "promoted to". -/
theorem c7_action_priority :
    (∀ t : String, extract_action t ∈
      ["promoted to", "appointed", "tapped as", "named", "joins as",
       "announced as"]) ∧
    (∀ t : String, hasSub "promoted" (lowerS t) = true →
      extract_action t = "promoted to") ∧
    extract_action "... was promoted and later named to the board ..."
      = "promoted to" := by
  refine ⟨?_, ?_, by decide⟩
  · intro t
    simp only [extract_action]
    split_ifs <;> simp
  · intro t h
    simp only [extract_action]
    rw [if_pos h]

/-- C7 witness: the priority rule applied at a concrete input. -/
theorem c7_witness :
    extract_action "x was promoted and later named y" = "promoted to" :=
  c7_action_priority.2.1 "x was promoted and later named y" (by decide)

/-- C8: `find_company_in_text` lower-cases the text and walks the company
list in caller order, testing the canonical name and then each alias as
substrings; the first company with any match is returned, `none` when no
company matches, and on the spec's example the Tyson Foods record wins
over Cargill. -/
theorem c8_company_first_match :
    (∀ (text : String) (comps : List Company) (c : Company),
      find_company_in_text text comps = some c →
      ∃ k, comps.get? k = some c ∧ companyHit (lowerS text) c = true ∧
        ∀ j, j < k → ∀ c2, comps.get? j = some c2 →
          companyHit (lowerS text) c2 = false) ∧
    (∀ (text : String) (comps : List Company),
      find_company_in_text text comps = none ↔
        ∀ c ∈ comps, companyHit (lowerS text) c = false) ∧
    find_company_in_text "... joins Tyson Foods as VP ..."
      [⟨"Tyson Foods", []⟩, ⟨"Cargill", []⟩] = some ⟨"Tyson Foods", []⟩ := by
  refine ⟨?_, ?_, by decide⟩
  · intro text comps c h
    exact fcLoop_some (lowerS text) comps c h
  · intro text comps
    exact fcLoop_none (lowerS text) comps

/-- C8 witness: the first-match characterization applied at the spec's
example input. -/
theorem c8_witness :
    ∃ k, ([⟨"Tyson Foods", []⟩, ⟨"Cargill", []⟩] : List Company).get? k
        = some ⟨"Tyson Foods", []⟩ ∧
      companyHit (lowerS "... joins Tyson Foods as VP ...") ⟨"Tyson Foods", []⟩
        = true ∧
      ∀ j, j < k → ∀ c2,
        ([⟨"Tyson Foods", []⟩, ⟨"Cargill", []⟩] : List Company).get? j = some c2 →
        companyHit (lowerS "... joins Tyson Foods as VP ...") c2 = false :=
  c8_company_first_match.1 "... joins Tyson Foods as VP ..."
    [⟨"Tyson Foods", []⟩, ⟨"Cargill", []⟩] ⟨"Tyson Foods", []⟩ (by decide)

theorem tryPatterns_cons_none (p : RE) (ps : List RE) (t : String)
    (hg : group1Search p t = none) :
    tryPatterns (p :: ps) t = tryPatterns ps t := by
  rw [tryPatterns, hg]

theorem tryPatterns_cons_some (p : RE) (ps : List RE) (t raw : String)
    (hg : group1Search p t = some raw) :
    tryPatterns (p :: ps) t =
      if _is_valid_person_name (pyStrip raw) = true then some (pyStrip raw)
      else tryPatterns ps t := by
  rw [tryPatterns, hg]

theorem tryPatterns_valid :
    ∀ (ps : List RE) (t n : String),
      tryPatterns ps t = some n → _is_valid_person_name n = true := by
  intro ps
  induction ps with
  | nil => intro t n h; simp [tryPatterns] at h
  | cons p ps ih =>
    intro t n h
    cases hg : group1Search p t with
    | none => rw [tryPatterns_cons_none p ps t hg] at h; exact ih t n h
    | some raw =>
      rw [tryPatterns_cons_some p ps t raw hg] at h
      by_cases hv : _is_valid_person_name (pyStrip raw) = true
      · rw [if_pos hv] at h
        obtain rfl : pyStrip raw = n := by injection h
        exact hv
      · rw [if_neg hv] at h; exact ih t n h

theorem candAtL_cons_zero (p : RE) (ps : List RE) (t : String) :
    candAtL (p :: ps) t 0 = (group1Search p t).map pyStrip := rfl

theorem candAtL_cons_succ (p : RE) (ps : List RE) (t : String) (k : Nat) :
    candAtL (p :: ps) t (k + 1) = candAtL ps t k := rfl

theorem tryPatterns_some_first :
    ∀ (ps : List RE) (t n : String),
      tryPatterns ps t = some n →
      ∃ k, candAtL ps t k = some n ∧ _is_valid_person_name n = true ∧
        ∀ j, j < k → ∀ m, candAtL ps t j = some m →
          _is_valid_person_name m = false := by
  intro ps
  induction ps with
  | nil => intro t n h; simp [tryPatterns] at h
  | cons p ps ih =>
    intro t n h
    cases hg : group1Search p t with
    | none =>
      rw [tryPatterns_cons_none p ps t hg] at h
      obtain ⟨k, hk, hv, hbefore⟩ := ih t n h
      refine ⟨k + 1, by rwa [candAtL_cons_succ], hv, ?_⟩
      intro j hj m hm
      match j with
      | 0 =>
        rw [candAtL_cons_zero, hg] at hm
        exact absurd hm (by simp)
      | Nat.succ j2 =>
        rw [candAtL_cons_succ] at hm
        exact hbefore j2 (by omega) m hm
    | some raw =>
      rw [tryPatterns_cons_some p ps t raw hg] at h
      by_cases hv : _is_valid_person_name (pyStrip raw) = true
      · rw [if_pos hv] at h
        obtain rfl : pyStrip raw = n := by injection h
        exact ⟨0, by rw [candAtL_cons_zero, hg]; rfl, hv, by omega⟩
      · rw [if_neg hv] at h
        obtain ⟨k, hk, hval, hbefore⟩ := ih t n h
        refine ⟨k + 1, by rwa [candAtL_cons_succ], hval, ?_⟩
        intro j hj m hm
        match j with
        | 0 =>
          rw [candAtL_cons_zero, hg] at hm
          obtain rfl : pyStrip raw = m := by
            simpa using hm
          simpa using hv
        | Nat.succ j2 =>
          rw [candAtL_cons_succ] at hm
          exact hbefore j2 (by omega) m hm

theorem tryPatterns_none_iff :
    ∀ (ps : List RE) (t : String),
      tryPatterns ps t = none ↔
        ∀ k m, candAtL ps t k = some m → _is_valid_person_name m = false := by
  intro ps
  induction ps with
  | nil =>
    intro t
    constructor
    · intro _ k m hm; simp [candAtL] at hm
    · intro _; rfl
  | cons p ps ih =>
    intro t
    cases hg : group1Search p t with
    | none =>
      rw [tryPatterns_cons_none p ps t hg]
      constructor
      · intro h k m hm
        match k with
        | 0 =>
          rw [candAtL_cons_zero, hg] at hm
          exact absurd hm (by simp)
        | Nat.succ k2 =>
          rw [candAtL_cons_succ] at hm
          exact ((ih t).mp h) k2 m hm
      · intro h
        exact (ih t).mpr (fun k m hm => h (k + 1) m (by rwa [candAtL_cons_succ]))
    | some raw =>
      rw [tryPatterns_cons_some p ps t raw hg]
      by_cases hv : _is_valid_person_name (pyStrip raw) = true
      · rw [if_pos hv]
        constructor
        · intro h; exact absurd h (by simp)
        · intro h
          have := h 0 (pyStrip raw) (by rw [candAtL_cons_zero, hg]; rfl)
          rw [hv] at this
          exact absurd this (by simp)
      · rw [if_neg hv]
        constructor
        · intro h k m hm
          match k with
          | 0 =>
            rw [candAtL_cons_zero, hg] at hm
            obtain rfl : pyStrip raw = m := by simpa using hm
            simpa using hv
          | Nat.succ k2 =>
            rw [candAtL_cons_succ] at hm
            exact ((ih t).mp h) k2 m hm
        · intro h
          exact (ih t).mpr (fun k m hm => h (k + 1) m (by rwa [candAtL_cons_succ]))

/-- C3: `extract_person_name` tries its patterns strictly in declared
order; a returned name is the stripped capture of some pattern `k`,
passes validation, and every earlier pattern either failed to match or
produced a capture rejected by the validation gate; the result is `none`
exactly when no pattern yields a capture surviving validation. -/
theorem c3_name_pattern_precedence :
    ∀ t : String,
      (∀ n, extract_person_name t = some n →
        ∃ k, nameCand t k = some n ∧ _is_valid_person_name n = true ∧
          ∀ j, j < k → ∀ m, nameCand t j = some m →
            _is_valid_person_name m = false) ∧
      (extract_person_name t = none ↔
        ∀ k m, nameCand t k = some m → _is_valid_person_name m = false) := by
  intro t
  constructor
  · intro n h
    exact tryPatterns_some_first namePatterns t n h
  · exact tryPatterns_none_iff namePatterns t

/-- C3 witness: the first-match characterization applied at a concrete
article title whose fourth pattern fires. -/
theorem c3_witness :
    ∃ k, nameCand "Acme Foods appointed John Smith as CEO" k = some "John Smith" ∧
      _is_valid_person_name "John Smith" = true ∧
      ∀ j, j < k → ∀ m,
        nameCand "Acme Foods appointed John Smith as CEO" j = some m →
        _is_valid_person_name m = false :=
  (c3_name_pattern_precedence "Acme Foods appointed John Smith as CEO").1
    "John Smith" (by decide)

/-- C4: every name accepted by `_is_valid_person_name` — and hence every
name returned by `extract_person_name` — has 2 to 4 words, a first word
outside the invalid-first-word set, and a last word outside the
invalid-last-word set (both case-insensitively). -/
theorem c4_validated_name_shape :
    (∀ name : String, _is_valid_person_name name = true →
      2 ≤ (splitPy name).length ∧ (splitPy name).length ≤ 4 ∧
      INVALID_FIRST_WORDS.contains (lowerS ((splitPy name).headD "")) = false ∧
      INVALID_LAST_WORDS.contains (lowerS ((splitPy name).getLastD "")) = false) ∧
    (∀ t n : String, extract_person_name t = some n →
      2 ≤ (splitPy n).length ∧ (splitPy n).length ≤ 4 ∧
      INVALID_FIRST_WORDS.contains (lowerS ((splitPy n).headD "")) = false ∧
      INVALID_LAST_WORDS.contains (lowerS ((splitPy n).getLastD "")) = false) := by
  have main : ∀ name : String, _is_valid_person_name name = true →
      2 ≤ (splitPy name).length ∧ (splitPy name).length ≤ 4 ∧
      INVALID_FIRST_WORDS.contains (lowerS ((splitPy name).headD "")) = false ∧
      INVALID_LAST_WORDS.contains (lowerS ((splitPy name).getLastD "")) = false := by
    intro name h
    simp only [_is_valid_person_name] at h
    by_cases h1 : name = ""
    · rw [if_pos h1] at h; exact absurd h (by simp)
    rw [if_neg h1] at h
    by_cases h2 : FALSE_POSITIVE_NAMES.contains (lowerS name) = true
    · rw [if_pos h2] at h; exact absurd h (by simp)
    rw [if_neg h2] at h
    by_cases h3 : 2 ≤ (splitPy name).length ∧ (splitPy name).length ≤ 4
    · rw [if_neg (not_not_intro h3)] at h
      by_cases h4 :
          INVALID_FIRST_WORDS.contains (lowerS ((splitPy name).headD "")) = true
      · rw [if_pos h4] at h; exact absurd h (by simp)
      rw [if_neg h4] at h
      by_cases h5 :
          INVALID_LAST_WORDS.contains (lowerS ((splitPy name).getLastD "")) = true
      · rw [if_pos h5] at h; exact absurd h (by simp)
      exact ⟨h3.1, h3.2, by simpa using h4, by simpa using h5⟩
    · rw [if_pos h3] at h; exact absurd h (by simp)
  exact ⟨main, fun t n h => main n (tryPatterns_valid namePatterns t n h)⟩

/-- C4 witness: the shape facts at a concrete accepted name and at a
concrete extraction. -/
theorem c4_witness :
    2 ≤ (splitPy "John Smith").length ∧ (splitPy "John Smith").length ≤ 4 ∧
    INVALID_FIRST_WORDS.contains (lowerS ((splitPy "John Smith").headD ""))
      = false ∧
    INVALID_LAST_WORDS.contains (lowerS ((splitPy "John Smith").getLastD ""))
      = false :=
  c4_validated_name_shape.1 "John Smith" (by decide)

theorem parse_date_ok (duParse : String → Except PyExc PyDT)
    (h : ∀ s, exnCaught (duParse s) = true) (pub : Option String) :
    ∃ r, parse_date duParse pub = .ok r := by
  cases pub with
  | none => exact ⟨none, rfl⟩
  | some s =>
    simp only [parse_date]
    by_cases hs : s = ""
    · rw [if_pos hs]; exact ⟨none, rfl⟩
    · rw [if_neg hs]
      have hc := h s
      cases hd : duParse s with
      | ok dt => exact ⟨some dt, rfl⟩
      | error e =>
        cases e with
        | valueError => exact ⟨none, rfl⟩
        | typeError => exact ⟨none, rfl⟩
        | overflowError => rw [hd] at hc; exact absurd hc (by simp [exnCaught])
        | otherExc => rw [hd] at hc; exact absurd hc (by simp [exnCaught])

theorem ageDropped_none_days (annDate : Option PyDT) (now : Int) :
    ageDropped none annDate now = false := by
  cases annDate <;> rfl

theorem ageDropped_zero_days (annDate : Option PyDT) (now : Int) :
    ageDropped (some 0) annDate now = false := by
  cases annDate with
  | none => rfl
  | some dt => simp [ageDropped]

theorem ageDropped_no_date (mad : Option Int) (now : Int) :
    ageDropped mad none now = false := by
  cases mad <;> rfl

/-- C5 (amended): whenever the external date parser fails only with the
two exception kinds `parse_date` catches (`ValueError`, `TypeError`),
`parse_article` returns `.ok` — a Candidate or nothing — for every
input; an exception of any other kind raised by the external date
parser (e.g. the `OverflowError` that dateutil documents for
out-of-range inputs) is not caught and propagates out of
`parse_article`. -/
theorem c5_no_fault_when_caught :
    ∀ (soupText : String → String) (duParse : String → Except PyExc PyDT),
      (∀ s, exnCaught (duParse s) = true) →
      ∀ (title content : String) (pub : Option String)
        (url sn : Option String) (mad : Option Int) (now : Int),
        ∃ r, parse_articleE soupText duParse title content pub url sn mad now
          = .ok r := by
  intro soup du h title content pub url sn mad now
  obtain ⟨r, hr⟩ := parse_date_ok du h pub
  simp only [parse_articleE, hr]
  repeat' split
  all_goals exact ⟨_, rfl⟩

/-- C5 (counterexample): with a date parser failing with an uncaught
exception kind, the exception escapes `parse_article` on an article
that passes classification, so "the only two outcomes are a Candidate
or nothing" is refuted. -/
theorem c5_counterexample :
    parse_articleE (fun s => s) (fun _ => .error .overflowError)
        "Acme Foods appointed John Smith as CEO" ""
        (some "99999999999999999999999999") none none none 0
      = .error .overflowError := by
  decide

/-- C5 witness: the no-fault theorem applied at a concrete benign
parser and input. -/
theorem c5_witness :
    ∃ r, parse_articleE (fun s => s) (fun _ => .error .valueError)
        "Acme Foods appointed John Smith as CEO" "" (some "not a date")
        none none none 0 = .ok r :=
  c5_no_fault_when_caught (fun s => s) (fun _ => .error .valueError)
    (fun _ => rfl) "Acme Foods appointed John Smith as CEO" ""
    (some "not a date") none none none 0

/-- C6: with a truthy `max_age_days` and a feed date that resolved to a
datetime strictly older than `now - max_age_days` (after discarding any
timezone offset), `parse_article` returns nothing, whatever the article
text. -/
theorem c6_age_filter_drops :
    ∀ (soupText : String → String) (duParse : String → Except PyExc PyDT)
      (title content : String) (pub : Option String) (url sn : Option String)
      (d now : Int) (dt : PyDT),
      d ≠ 0 →
      parse_date duParse pub = .ok (some dt) →
      (pyDropTz dt).wall < now - d * 86400 →
      parse_articleE soupText duParse title content pub url sn (some d) now
        = .ok none := by
  intro soup du title content pub url sn d now dt hd hpd hlt
  have hdrop : ageDropped (some d) (some dt) now = true := by
    simp only [ageDropped]
    rw [if_neg hd]
    exact decide_eq_true hlt
  simp only [parse_articleE, hpd, hdrop, if_true, ite_self]

/-- C6 witness: `max_age_days = 7` and a publication date 10 days in the
past yield nothing, on an article whose extraction would otherwise
succeed. -/
theorem c6_witness :
    parse_articleE (fun s => s) (fun _ => .ok ⟨-864000, false⟩)
        "Acme Foods appointed John Smith as CEO" "" (some "ten days ago")
        none none (some 7) 0
      = .ok none :=
  c6_age_filter_drops (fun s => s) (fun _ => .ok ⟨-864000, false⟩)
    "Acme Foods appointed John Smith as CEO" "" (some "ten days ago")
    none none 7 0 ⟨-864000, false⟩ (by decide) rfl (by decide)

/-- C10: the age filter needs both a truthy `max_age_days` and a resolved
date: with `max_age_days = 0` the parse behaves exactly as with no
`max_age_days`; with an unresolvable feed date it also behaves exactly
as with no `max_age_days`; and a concrete article with
`max_age_days = 7` and an unparsable date string still yields a
Candidate whose `announcement_date` is `none`. -/
theorem c10_age_filter_preconditions :
    (∀ (soupText : String → String) (duParse : String → Except PyExc PyDT)
       (title content : String) (pub : Option String) (url sn : Option String)
       (now : Int),
      parse_articleE soupText duParse title content pub url sn (some 0) now
        = parse_articleE soupText duParse title content pub url sn none now) ∧
    (∀ (soupText : String → String) (duParse : String → Except PyExc PyDT)
       (title content : String) (pub : Option String) (url sn : Option String)
       (mad : Option Int) (now : Int),
      parse_date duParse pub = .ok none →
      parse_articleE soupText duParse title content pub url sn mad now
        = parse_articleE soupText duParse title content pub url sn none now) ∧
    parse_articleE (fun s => s) (fun _ => .error .valueError)
        "Acme Foods appointed John Smith as CEO" "" (some "bad-date")
        none none (some 7) 0
      = .ok (some
          { person_name := "John Smith", new_title := some "CEO",
            action := "appointed",
            raw_text := "Acme Foods appointed John Smith as CEO ",
            source_url := none, source_name := none,
            announcement_date := none }) := by
  refine ⟨?_, ?_, by decide⟩
  · intro soup du title content pub url sn now
    simp only [parse_articleE, ageDropped_zero_days, ageDropped_none_days]
  · intro soup du title content pub url sn mad now h
    simp only [parse_articleE, h, ageDropped_no_date]

/-- C10 witness: the unresolved-date part applied at a concrete parser
whose failure is caught. -/
theorem c10_witness :
    parse_articleE (fun s => s) (fun _ => .error .valueError)
        "some title" "" (some "bad-date") none none (some 5) 3
      = parse_articleE (fun s => s) (fun _ => .error .valueError)
        "some title" "" (some "bad-date") none none none 3 :=
  c10_age_filter_preconditions.2.1 (fun s => s) (fun _ => .error .valueError)
    "some title" "" (some "bad-date") none none (some 5) 3 rfl

theorem dedupAnnAux_cons_none (seen : List String) (a : Candidate)
    (rest : List Candidate) (h : a.source_url = none) :
    dedupAnnAux seen (a :: rest) = a :: dedupAnnAux seen rest := by
  rw [dedupAnnAux, h]

theorem dedupAnnAux_cons_some (seen : List String) (a : Candidate)
    (rest : List Candidate) (v : String) (h : a.source_url = some v) :
    dedupAnnAux seen (a :: rest) =
      if v ≠ "" then
        if seen.contains v then dedupAnnAux seen rest
        else a :: dedupAnnAux (v :: seen) rest
      else a :: dedupAnnAux seen rest := by
  rw [dedupAnnAux, h]

theorem dedupAnn_countP (u : String) (hu : u ≠ "") :
    ∀ (l : List Candidate) (seen : List String),
      (dedupAnnAux seen l).countP (fun a => decide (a.source_url = some u)) =
        if seen.contains u then 0
        else min 1 (l.countP (fun a => decide (a.source_url = some u))) := by
  intro l
  induction l with
  | nil =>
    intro seen
    simp only [dedupAnnAux, List.countP_nil]
    split <;> simp
  | cons a rest ih =>
    intro seen
    cases ha : a.source_url with
    | none =>
      have hpa : (fun a2 : Candidate => decide (a2.source_url = some u)) a
          = false := by simp [ha]
      rw [dedupAnnAux_cons_none seen a rest ha]
      simp only [List.countP_cons, hpa, Bool.false_eq_true, if_false,
        Nat.add_zero, ih seen]
    | some v =>
      rw [dedupAnnAux_cons_some seen a rest v ha]
      by_cases hv : v = ""
      · rw [if_neg (by simp [hv])]
        have hpa : (fun a2 : Candidate => decide (a2.source_url = some u)) a
            = false := by
          simp only [ha, decide_eq_false_iff_not]
          intro hh
          injection hh with h2
          exact hu (h2.symm.trans hv)
        simp only [List.countP_cons, hpa, Bool.false_eq_true, if_false,
          Nat.add_zero, ih seen]
      · rw [if_pos hv]
        by_cases hs : seen.contains v = true
        · rw [if_pos hs]
          by_cases huv : u = v
          · subst huv
            rw [ih seen, if_pos hs, if_pos hs]
          · have hpa : (fun a2 : Candidate => decide (a2.source_url = some u)) a
                = false := by
              simp only [ha, decide_eq_false_iff_not]
              intro hh
              exact huv (by injection hh with h2; exact h2.symm)
            simp only [List.countP_cons, hpa, Bool.false_eq_true, if_false,
              Nat.add_zero, ih seen]
        · rw [if_neg hs]
          have hs2 : seen.contains v = false := Bool.eq_false_iff.mpr hs
          by_cases huv : u = v
          · subst huv
            have hpa : (fun a2 : Candidate => decide (a2.source_url = some u)) a
                = true := by simp [ha]
            have hseen : (u :: seen).contains u = true := by
              rw [List.contains_cons, beq_self_eq_true, Bool.true_or]
            simp only [List.countP_cons, hpa, if_true, ih (u :: seen), hseen,
              eq_self_iff_true, hs2, Bool.false_eq_true, if_false]
            omega
          · have hpa : (fun a2 : Candidate => decide (a2.source_url = some u)) a
                = false := by
              simp only [ha, decide_eq_false_iff_not]
              intro hh
              exact huv (by injection hh with h2; exact h2.symm)
            have hseen : (v :: seen).contains u = seen.contains u := by
              rw [List.contains_cons, beq_eq_false_iff_ne.mpr huv, Bool.false_or]
            simp only [List.countP_cons, hpa, Bool.false_eq_true, if_false,
              Nat.add_zero, ih (v :: seen), hseen]

theorem dedupAnn_filter :
    ∀ (l : List Candidate) (seen : List String),
      (dedupAnnAux seen l).filter urlNotTruthy = l.filter urlNotTruthy := by
  intro l
  induction l with
  | nil => intro seen; rfl
  | cons a rest ih =>
    intro seen
    cases ha : a.source_url with
    | none =>
      have hn : urlNotTruthy a = true := by simp [urlNotTruthy, ha]
      rw [dedupAnnAux_cons_none seen a rest ha]
      simp only [List.filter_cons, hn, if_true, ih seen]
    | some v =>
      rw [dedupAnnAux_cons_some seen a rest v ha]
      by_cases hv : v = ""
      · rw [if_neg (by simp [hv])]
        have hn : urlNotTruthy a = true := by simp [urlNotTruthy, ha, hv]
        simp only [List.filter_cons, hn, if_true, ih seen]
      · rw [if_pos hv]
        have hn : urlNotTruthy a = false := by simp [urlNotTruthy, ha, hv]
        by_cases hs : seen.contains v = true
        · rw [if_pos hs]
          simp only [List.filter_cons, hn, Bool.false_eq_true, if_false, ih seen]
        · rw [if_neg hs]
          simp only [List.filter_cons, hn, Bool.false_eq_true, if_false,
            ih (v :: seen)]

/-- C9 (counterexample): in the `fetch_google_news` batch dedup two raw
articles with empty links and identical content are collapsed to one,
so "articles with an empty URL are never deduplicated this way" fails
in the aggregation run. -/
theorem c9_counterexample :
    (dedup_by_link [⟨"t", "c", "", "p", "s"⟩, ⟨"t", "c", "", "p", "s"⟩]).length
      = 1 := by
  decide

/-- C9 (amended): in the announcement-level dedup of `fetch_all`,
announcements sharing an identical non-empty source URL collapse to
exactly one output and announcements with a falsy (absent or empty) URL
are all retained; the raw-article dedup of `fetch_google_news`, by
contrast, collapses identical links even when they are empty. -/
theorem c9_dedup_amended :
    (∀ (l : List Candidate) (u : String), u ≠ "" →
      (∃ a ∈ l, a.source_url = some u) →
      (dedup_by_source_url l).countP (fun a => decide (a.source_url = some u))
        = 1) ∧
    (∀ l : List Candidate,
      (dedup_by_source_url l).filter urlNotTruthy = l.filter urlNotTruthy) ∧
    dedup_by_link [⟨"t", "c", "", "p", "s"⟩, ⟨"t", "c", "", "p", "s"⟩]
      = [⟨"t", "c", "", "p", "s"⟩] := by
  refine ⟨?_, ?_, by decide⟩
  · intro l u hu hex
    have hpos : 0 < l.countP (fun a => decide (a.source_url = some u)) := by
      rw [List.countP_pos_iff]
      obtain ⟨a, hal, hau⟩ := hex
      exact ⟨a, hal, by simp [hau]⟩
    have hcnt := dedupAnn_countP u hu l []
    simp only [dedup_by_source_url]
    rw [hcnt]
    have : ([] : List String).contains u = false := rfl
    rw [this]
    simp only [Bool.false_eq_true, if_false]
    omega
  · intro l
    exact dedupAnn_filter l []

/-- C9 witness: two announcements with the same non-empty URL collapse to
one. -/
theorem c9_witness :
    (dedup_by_source_url
        [⟨"A B", none, "named", "r", some "u1", none, none⟩,
         ⟨"C D", none, "named", "r", some "u1", none, none⟩]).countP
      (fun a => decide (a.source_url = some "u1")) = 1 :=
  c9_dedup_amended.1
    [⟨"A B", none, "named", "r", some "u1", none, none⟩,
     ⟨"C D", none, "named", "r", some "u1", none, none⟩]
    "u1" (by decide) (by decide)

end PotM
